import Mathlib

/-!
Verification of the DC charts loader dual-chart core against its
specification.  The measurement engine, the dual-chart controller and the
time-series store are embedded as pure Lean functions over explicit state;
numeric values are modelled by rational numbers, machine paths and labels
by strings.
-/

namespace DCCharts

/-- Modelled from the spec: `MeasurementPoint` = timestamp plus price
captured from a single user click; the engine is parameterized by which
pane supplied each point, recorded in `pane`.  The implementation module
is not in the source tree, so the data model follows section 3 of the
specification. -/
structure MeasurementPoint where
  timestamp : ℚ
  price : ℚ
  pane : Nat
deriving DecidableEq

/-- Modelled from the spec: a completed `Measurement` holds its two points
plus the derived time delta (days), absolute price delta and percentage
price delta (`none` when the first price is zero). -/
structure Measurement where
  p1 : MeasurementPoint
  p2 : MeasurementPoint
  time_delta_days : ℚ
  price_delta_abs : ℚ
  price_delta_pct : Option ℚ
deriving DecidableEq

/-- Modelled from the spec: finalizing a measurement from its two clicks,
per section 4.3: `time_delta_days = |t2 - t1|`, `price_delta_abs = |p2 - p1|`,
`price_delta_pct = (p2 - p1) / p1 * 100` with the percentage clamped to
`none` when the first price is zero. -/
def completeMeasurement (p1 p2 : MeasurementPoint) : Measurement :=
  { p1 := p1
    p2 := p2
    time_delta_days := |p2.timestamp - p1.timestamp|
    price_delta_abs := |p2.price - p1.price|
    price_delta_pct :=
      if p1.price = 0 then none
      else some ((p2.price - p1.price) / p1.price * 100) }

/-- Modelled from the spec: the measurement engine state is either empty,
holding a pending first click, or holding one completed measurement. -/
inductive EngineState where
  | empty : EngineState
  | pending (p1 : MeasurementPoint) : EngineState
  | completed (m : Measurement) : EngineState
deriving DecidableEq

/-- Modelled from the spec: `register_click` of section 4.3.  A click on an
empty engine starts a pending measurement; a click on a pending engine
completes it; a click while a completed measurement exists discards the old
measurement and starts a fresh pending one. -/
def register_click (p : MeasurementPoint) : EngineState → EngineState
  | .empty => .pending p
  | .pending p1 => .completed (completeMeasurement p1 p)
  | .completed _ => .pending p

/-- Modelled from the spec: `clear()` removes any pending or completed
measurement; idempotent. -/
def clear : EngineState → EngineState := fun _ => .empty

/-- The measurements held by an engine state (at most the one completed
measurement). -/
def activeMeasurements : EngineState → List Measurement
  | .completed m => [m]
  | _ => []

/-- Engine states reachable from the initial empty state by clicks and
clears. -/
inductive Reachable : EngineState → Prop where
  | init : Reachable .empty
  | click (p : MeasurementPoint) {s : EngineState} :
      Reachable s → Reachable (register_click p s)
  | wipe {s : EngineState} : Reachable s → Reachable (clear s)

/-- C1: two clicks produce a completed measurement whose percentage delta is
`(p2.price - p1.price) / p1.price * 100` when the first price is nonzero and
`none` when it is zero; `register_click` is a total function, so no error is
raised on either path. -/
theorem two_clicks_price_delta_pct (p1 p2 : MeasurementPoint) :
    register_click p2 (register_click p1 .empty) =
      .completed (completeMeasurement p1 p2) ∧
    (p1.price ≠ 0 →
      (completeMeasurement p1 p2).price_delta_pct =
        some ((p2.price - p1.price) / p1.price * 100)) ∧
    (p1.price = 0 → (completeMeasurement p1 p2).price_delta_pct = none) := by
  refine ⟨rfl, fun h => ?_, fun h => ?_⟩ <;> simp [completeMeasurement, h]

/-- Witness for C1: clicking at price 100 then price 105 yields a completed
measurement with a 5 percent delta; clicking first at price 0 yields an
undefined percentage. -/
theorem two_clicks_price_delta_pct_witness :
    (completeMeasurement ⟨0, 100, 0⟩ ⟨1, 105, 0⟩).price_delta_pct = some 5 ∧
    (completeMeasurement ⟨0, 0, 0⟩ ⟨1, 105, 0⟩).price_delta_pct = none := by
  constructor
  · have h := (two_clicks_price_delta_pct ⟨0, 100, 0⟩ ⟨1, 105, 0⟩).2.1 (by norm_num)
    rw [h]; norm_num
  · exact (two_clicks_price_delta_pct ⟨0, 0, 0⟩ ⟨1, 105, 0⟩).2.2 rfl

/-- C5: every reachable engine state holds at most one measurement, and a
click while a completed measurement exists discards it and starts a fresh
pending measurement. -/
theorem at_most_one_measurement :
    (∀ s : EngineState, Reachable s → (activeMeasurements s).length ≤ 1) ∧
    (∀ (m : Measurement) (p : MeasurementPoint),
      register_click p (.completed m) = .pending p) := by
  refine ⟨fun s _ => ?_, fun m p => rfl⟩
  cases s <;> simp [activeMeasurements]

/-- Witness for C5: the empty state is reachable and holds no measurement,
and a click on a concrete completed state yields a fresh pending state. -/
theorem at_most_one_measurement_witness :
    (activeMeasurements .empty).length ≤ 1 ∧
    register_click ⟨2, 3, 0⟩
        (.completed (completeMeasurement ⟨0, 1, 0⟩ ⟨1, 2, 0⟩)) =
      .pending ⟨2, 3, 0⟩ :=
  ⟨at_most_one_measurement.1 .empty .init,
   at_most_one_measurement.2 (completeMeasurement ⟨0, 1, 0⟩ ⟨1, 2, 0⟩) ⟨2, 3, 0⟩⟩

/-- Modelled from the spec: one OHLCV bar keyed by timestamp (section 3);
the field named open in the source is rendered open_ because Lean reserves
the word. -/
structure Bar where
  timestamp : ℚ
  open_ : ℚ
  high : ℚ
  low : ℚ
  close : ℚ
  volume : ℚ
deriving DecidableEq

/-- Modelled from the spec: the error kinds of section 7 that the store and
controller surface to the caller. -/
inductive Err where
  | IndexOutOfRange : Err
  | UnknownTicker : Err
  | UnknownTimeframe : Err
deriving DecidableEq

/-- Modelled from the spec: an instrument record (section 3) — a ticker, a
mapping from timeframe label to its ordered bars, and the default timeframe
used by the fallback policy of section 4.4. -/
structure Instrument where
  ticker : String
  data : List (String × List Bar)
  default_timeframe : String
deriving DecidableEq

/-- Look up the bars an instrument stores for a timeframe label. -/
def lookupTf (inst : Instrument) (tf : String) : Option (List Bar) :=
  (inst.data.find? (fun p => p.1 == tf)).map Prod.snd

/-- Modelled from the spec: `get_bars(ticker, timeframe)` of section 4.1 —
returns the stored ordered bars, fails with `UnknownTicker` when the ticker
is absent and with `UnknownTimeframe` when the timeframe is not present for
that ticker. -/
def get_bars (store : List Instrument) (ticker tf : String) :
    Except Err (List Bar) :=
  match store.find? (fun i => i.ticker == ticker) with
  | none => .error .UnknownTicker
  | some inst =>
    match lookupTf inst tf with
    | none => .error .UnknownTimeframe
    | some bars => .ok bars

/-- C7: `get_bars` returns exactly the stored bars unmodified when the
ticker and timeframe are present, fails with `UnknownTimeframe` when the
timeframe is missing for that ticker, and with `UnknownTicker` when the
ticker is absent. -/
theorem get_bars_spec (store : List Instrument) (ticker tf : String) :
    (store.find? (fun i => i.ticker == ticker) = none →
      get_bars store ticker tf = .error .UnknownTicker) ∧
    (∀ inst, store.find? (fun i => i.ticker == ticker) = some inst →
      (lookupTf inst tf = none →
        get_bars store ticker tf = .error .UnknownTimeframe) ∧
      (∀ bars, lookupTf inst tf = some bars →
        get_bars store ticker tf = .ok bars)) := by
  refine ⟨fun h => ?_, fun inst h => ⟨fun h2 => ?_, fun bars h2 => ?_⟩⟩
  · simp [get_bars, h]
  · simp [get_bars, h, h2]
  · simp [get_bars, h, h2]

/-- The ZKIN 1D bar of 2025-05-08 used by the specification scenario:
open 10, high 12, low 9, close 11. -/
def zkinBar : Bar := ⟨20216, 10, 12, 9, 11, 1000⟩

/-- A one-instrument store holding only ZKIN with daily data. -/
def zkinStore : List Instrument :=
  [⟨"ZKIN", [("1D", [zkinBar])], "1D"⟩]

/-- Witness for C7: on the ZKIN store, requesting timeframe 1D returns the
stored bar unmodified, timeframe 1W fails with `UnknownTimeframe`, and an
absent ticker fails with `UnknownTicker`. -/
theorem get_bars_spec_witness :
    get_bars zkinStore "ZKIN" "1D" = .ok [zkinBar] ∧
    get_bars zkinStore "ZKIN" "1W" = .error .UnknownTimeframe ∧
    get_bars zkinStore "AAA" "1D" = .error .UnknownTicker := by
  refine ⟨?_, ?_, ?_⟩
  · exact ((get_bars_spec zkinStore "ZKIN" "1D").2
      ⟨"ZKIN", [("1D", [zkinBar])], "1D"⟩ rfl).2 [zkinBar] rfl
  · exact ((get_bars_spec zkinStore "ZKIN" "1W").2
      ⟨"ZKIN", [("1D", [zkinBar])], "1D"⟩ rfl).1 rfl
  · exact (get_bars_spec zkinStore "AAA" "1D").1 rfl

/-- Modelled from the spec: a viewport is the visible time and price window
of a pane (glossary), recomputed from scratch from the displayed bars. -/
structure Viewport where
  tmin : ℚ
  tmax : ℚ
  pmin : ℚ
  pmax : ℚ
deriving DecidableEq

/-- Modelled from the spec: the viewport computed from a list of bars — the
full time range and low-to-high price range of the data (zero window when
there are no bars). -/
def computeViewport (bars : List Bar) : Viewport :=
  match bars with
  | [] => ⟨0, 0, 0, 0⟩
  | b :: bs =>
    bs.foldl
      (fun acc x => ⟨min acc.tmin x.timestamp, max acc.tmax x.timestamp,
        min acc.pmin x.low, max acc.pmax x.high⟩)
      ⟨b.timestamp, b.timestamp, b.low, b.high⟩

/-- Modelled from the spec: per-pane state — the active timeframe label and
the viewport derived from it (section 3; the shared index lives in the
controller per section 9). -/
structure PaneState where
  timeframe : String
  viewport : Viewport
deriving DecidableEq

/-- Modelled from the spec: the dual-chart controller owns the store, the
single authoritative shared `current_index`, and the two pane states. -/
structure DualController where
  store : List Instrument
  current_index : Nat
  paneA : PaneState
  paneB : PaneState
deriving DecidableEq

/-- Modelled from the spec: refreshing one pane against a newly displayed
instrument (section 4.4) — the pane re-resolves its own timeframe against
the instrument, falling back to the instrument default timeframe when the
current one is unavailable, and recomputes its viewport from scratch. -/
def refreshPane (inst : Instrument) (p : PaneState) : PaneState :=
  match lookupTf inst p.timeframe with
  | some bars => ⟨p.timeframe, computeViewport bars⟩
  | none =>
    ⟨inst.default_timeframe,
     computeViewport ((lookupTf inst inst.default_timeframe).getD [])⟩

/-- Modelled from the spec: moving the shared index to `idx` and refreshing
both panes against the instrument now displayed there. -/
def refreshAt (c : DualController) (idx : Nat) : DualController :=
  match c.store[idx]? with
  | some inst =>
    { c with current_index := idx
             paneA := refreshPane inst c.paneA
             paneB := refreshPane inst c.paneB }
  | none => { c with current_index := idx }

/-- Modelled from the spec: `navigate(delta)` of section 4.4 — target =
current_index + delta; when the target is out of [0, instrument_count) the
operation is a no-op and the prior index is retained; otherwise both panes
are refreshed against the new index. -/
def navigate (delta : Int) (c : DualController) : DualController :=
  let target : Int := (c.current_index : Int) + delta
  if 0 ≤ target ∧ target < (c.store.length : Int) then
    refreshAt c target.toNat
  else c

/-- The instrument a pane currently displays: the store entry at the shared
index. -/
def displayedInstrument (c : DualController) : Option Instrument :=
  c.store[c.current_index]?

/-- Modelled from the spec: the identity of one of the two chart panes. -/
inductive PaneId where
  | A : PaneId
  | B : PaneId
deriving DecidableEq

/-- Modelled from the spec: `set_pane_timeframe(pane_id, label)` of section
4.4 delegating to the named pane per section 4.2 — switches that pane's
displayed timeframe without altering `current_index`, and on
`UnknownTimeframe` (or an invalid index) leaves the whole state unchanged,
reporting the error alongside the state. -/
def set_pane_timeframe (pid : PaneId) (label : String) (c : DualController) :
    DualController × Option Err :=
  match c.store[c.current_index]? with
  | none => (c, some .IndexOutOfRange)
  | some inst =>
    match lookupTf inst label with
    | none => (c, some .UnknownTimeframe)
    | some bars =>
      let p : PaneState := ⟨label, computeViewport bars⟩
      match pid with
      | .A => ({ c with paneA := p }, none)
      | .B => ({ c with paneB := p }, none)

/-- `refreshAt` never changes the store. -/
theorem refreshAt_store (c : DualController) (idx : Nat) :
    (refreshAt c idx).store = c.store := by
  cases h : c.store[idx]? <;> simp [refreshAt, h]

/-- `refreshAt` sets the shared index to its argument. -/
theorem refreshAt_index (c : DualController) (idx : Nat) :
    (refreshAt c idx).current_index = idx := by
  cases h : c.store[idx]? <;> simp [refreshAt, h]

/-- In-range navigation refreshes both panes at the target index. -/
theorem navigate_in_range (c : DualController) (delta : Int)
    (h0 : 0 ≤ (c.current_index : Int) + delta)
    (h1 : (c.current_index : Int) + delta < (c.store.length : Int)) :
    navigate delta c = refreshAt c ((c.current_index : Int) + delta).toNat := by
  simp [navigate, h0, h1]

/-- Out-of-range navigation takes the else branch and returns the state
unchanged. -/
theorem navigate_not_in_range (c : DualController) (delta : Int)
    (hcond : ¬(0 ≤ (c.current_index : Int) + delta ∧
      (c.current_index : Int) + delta < (c.store.length : Int))) :
    navigate delta c = c := by
  unfold navigate
  exact if_neg hcond

/-- C2: when the target index `current_index + delta` falls outside
`[0, instrument_count)`, `navigate` is a no-op — the whole controller state,
and in particular `current_index`, is unchanged; `navigate` is a total
function, so no error is raised or reported. -/
theorem navigate_out_of_range_noop (c : DualController) (delta : Int)
    (_hidx : c.current_index < c.store.length)
    (hout : (c.current_index : Int) + delta < 0 ∨
      (c.store.length : Int) ≤ (c.current_index : Int) + delta) :
    navigate delta c = c ∧ (navigate delta c).current_index = c.current_index := by
  have h : navigate delta c = c := navigate_not_in_range c delta (by omega)
  exact ⟨h, by rw [h]⟩

/-- A small daily instrument used by the navigation scenarios. -/
def demoInstrument (t : String) : Instrument :=
  ⟨t, [("1D", [zkinBar])], "1D"⟩

/-- A controller over the instrument list [AAA, BBB, CCC] with the shared
index at 1. -/
def demoController : DualController :=
  ⟨[demoInstrument "AAA", demoInstrument "BBB", demoInstrument "CCC"], 1,
   ⟨"1D", computeViewport [zkinBar]⟩, ⟨"1D", computeViewport [zkinBar]⟩⟩

/-- Witness for C2: on the three-instrument controller at index 1,
`navigate (-7)` targets index -6 and is a no-op. -/
theorem navigate_out_of_range_noop_witness :
    navigate (-7) demoController = demoController ∧
    (navigate (-7) demoController).current_index = demoController.current_index :=
  navigate_out_of_range_noop demoController (-7) (by decide)
    (Or.inl (by decide))

/-- C3 counterexample: with the instrument list [AAA, BBB, CCC] and
current_index = 1, `navigate (+5)` does not land on index 2 — the
out-of-range request is a no-op, so the index stays 1. -/
theorem navigate_plus_five_counterexample :
    demoController.store.length = 3 ∧ demoController.current_index = 1 ∧
    (navigate 5 demoController).current_index ≠ 2 := by decide

/-- C3 amended: with the instrument list [AAA, BBB, CCC] and
current_index = 1, `navigate (+5)` is a no-op: current_index stays 1 — not
6, not a wrapped value, and not the clamped last index 2. -/
theorem navigate_plus_five_noop :
    navigate 5 demoController = demoController ∧
    (navigate 5 demoController).current_index = 1 := by decide

/-- C4: when `current_index + 1` is still a valid index, `navigate (+1)`
followed by `navigate (-1)` restores `current_index` and the displayed
instrument of both panes (both panes share the index, so both display the
restored store entry); at the lower boundary, `navigate (-1)` alone is a
no-op. -/
theorem navigate_round_trip (c : DualController)
    (h : c.current_index + 1 < c.store.length) :
    (navigate (-1) (navigate 1 c)).current_index = c.current_index ∧
    displayedInstrument (navigate (-1) (navigate 1 c)) =
      displayedInstrument c ∧
    (c.current_index = 0 → navigate (-1) c = c) := by
  have h1 : navigate 1 c = refreshAt c ((c.current_index : Int) + 1).toNat :=
    navigate_in_range c 1 (by omega) (by omega)
  have hidx1 : (navigate 1 c).current_index = c.current_index + 1 := by
    rw [h1, refreshAt_index]; omega
  have hst1 : (navigate 1 c).store = c.store := by rw [h1, refreshAt_store]
  have h2 : navigate (-1) (navigate 1 c) =
      refreshAt (navigate 1 c)
        (((navigate 1 c).current_index : Int) + (-1)).toNat := by
    refine navigate_in_range _ _ ?_ ?_ <;> simp only [hidx1, hst1] <;> omega
  have hidx2 : (navigate (-1) (navigate 1 c)).current_index = c.current_index := by
    rw [h2, refreshAt_index, hidx1]; omega
  refine ⟨hidx2, ?_, fun h0 => ?_⟩
  · unfold displayedInstrument
    rw [hidx2, h2, refreshAt_store, hst1]
  · exact navigate_not_in_range c (-1) (by omega)

/-- Witness for C4: on the three-instrument controller at index 1, the
round trip restores the index and the displayed instrument, and at a copy
moved to index 0 a single `navigate (-1)` is a no-op. -/
theorem navigate_round_trip_witness :
    (navigate (-1) (navigate 1 demoController)).current_index =
      demoController.current_index ∧
    displayedInstrument (navigate (-1) (navigate 1 demoController)) =
      displayedInstrument demoController :=
  ⟨(navigate_round_trip demoController (by decide)).1,
   (navigate_round_trip demoController (by decide)).2.1⟩

/-- C6: `set_pane_timeframe` on pane A never touches pane B — its timeframe
and viewport — nor the shared `current_index`, on the success path and on
both failure paths (`UnknownTimeframe`, invalid index) alike. -/
theorem set_pane_timeframe_frame (c : DualController) (label : String) :
    (set_pane_timeframe .A label c).1.paneB = c.paneB ∧
    (set_pane_timeframe .A label c).1.current_index = c.current_index := by
  cases h : c.store[c.current_index]? with
  | none => simp [set_pane_timeframe, h]
  | some inst =>
    cases h2 : lookupTf inst label with
    | none => simp [set_pane_timeframe, h, h2]
    | some bars => simp [set_pane_timeframe, h, h2]

/-- An intraday input bar for resampling: timestamp in seconds since the
epoch plus OHLCV values (the field named open in the source is rendered
open_ because Lean reserves the word). -/
structure MinuteBar where
  timestamp : Nat
  open_ : ℚ
  high : ℚ
  low : ℚ
  close : ℚ
  volume : ℚ
deriving DecidableEq

/-- The calendar-day bucket a bar falls into (seconds divided by 86400),
embedding the daily grouping of pandas `Grouper(freq=D)`. -/
def dayOf (b : MinuteBar) : Nat := b.timestamp / 86400

/-- One aggregated output bar of the resampler. -/
structure BoxBar where
  open_ : ℚ
  high : ℚ
  low : ℚ
  close : ℚ
  volume : ℚ
deriving DecidableEq

/-- Modelled from the spec: the OHLCV aggregate of one nonempty day group
(the aggregation body of `_box_values` is not quoted in the source tree):
first open, max high, min low, last close, summed volume. -/
def boxOf (b : MinuteBar) (rest : List MinuteBar) : BoxBar :=
  { open_ := b.open_
    high := rest.foldl (fun a x => max a x.high) b.high
    low := rest.foldl (fun a x => min a x.low) b.low
    close := ((rest.getLast?).getD b).close
    volume := rest.foldl (fun a x => a + x.volume) b.volume }

/-- The bars of one day bucket, in input order. -/
def dayGroup (bars : List MinuteBar) (d : Nat) : List MinuteBar :=
  bars.filter (fun x => dayOf x == d)

/-- The output row of one day bucket: `none` when the bucket holds no input
bar (the `if not group_df.empty` guard of `_box_values`), otherwise the day
paired with its aggregate. -/
def dayBox (bars : List MinuteBar) (d : Nat) : Option (Nat × BoxBar) :=
  match dayGroup bars d with
  | [] => none
  | g :: gs => some (d, boxOf g gs)

/-- The session resampler `_box_values` of src/ui/utils.py as quoted in the
source tree: group the input by calendar day over the covered day range —
pandas `Grouper(freq=D)` enumerates every day between the first and the
last, empty days included — and emit one aggregated bar per nonempty
group. -/
def box_values (bars : List MinuteBar) : List (Nat × BoxBar) :=
  match bars with
  | [] => []
  | b :: bs =>
    let dmin := bs.foldl (fun a x => min a (dayOf x)) (dayOf b)
    let dmax := bs.foldl (fun a x => max a (dayOf x)) (dayOf b)
    (List.range' dmin (dmax - dmin + 1)).filterMap (dayBox (b :: bs))

/-- A produced day row carries its own day, witnessed by a bar of that day
in the input. -/
theorem dayBox_some (bars : List MinuteBar) (d : Nat) (x : Nat × BoxBar)
    (h : dayBox bars d = some x) : x.1 = d ∧ ∃ g ∈ bars, dayOf g = d := by
  unfold dayBox at h
  cases hfil : dayGroup bars d with
  | nil => rw [hfil] at h; cases h
  | cons g gs =>
    rw [hfil] at h
    injection h with h
    refine ⟨by rw [← h], g, ?_, ?_⟩
    · have hg : g ∈ dayGroup bars d := by
        rw [hfil]; exact List.mem_cons_self g gs
      exact (List.mem_filter.mp hg).1
    · have hg : g ∈ dayGroup bars d := by
        rw [hfil]; exact List.mem_cons_self g gs
      have := (List.mem_filter.mp hg).2
      simpa [dayOf] using this

/-- C8: the day-grouping resampler is deterministic (equal inputs give
equal outputs — it is a pure function of the input bar list), and a day
bucket containing zero input bars contributes no output bar: no output row
carries a day on which no input bar falls. -/
theorem box_values_empty_bucket (bars : List MinuteBar) :
    (∀ bars2, bars = bars2 → box_values bars = box_values bars2) ∧
    (∀ d : Nat, (∀ b ∈ bars, dayOf b ≠ d) →
      ∀ x ∈ box_values bars, x.1 ≠ d) := by
  refine ⟨fun bars2 h => by rw [h], fun d hd x hx => ?_⟩
  cases bars with
  | nil => simp [box_values] at hx
  | cons b bs =>
    simp only [box_values] at hx
    obtain ⟨a, _, hfa⟩ := List.mem_filterMap.mp hx
    obtain ⟨hx1, g, hg, hgd⟩ := dayBox_some (b :: bs) a x hfa
    rw [hx1]
    intro had
    exact hd g hg (had ▸ hgd)

/-- Input bars on day 0 and day 2 only, leaving day 1 an empty bucket. -/
def demoBars : List MinuteBar :=
  [⟨0, 1, 2, 1, 2, 10⟩, ⟨172800, 1, 2, 1, 2, 10⟩]

/-- Witness for C8: on bars covering day 0 and day 2, the first output row
of the resampler does not carry the empty day 1. -/
theorem box_values_empty_bucket_witness :
    ((box_values demoBars).head (by decide)).1 ≠ 1 :=
  (box_values_empty_bucket demoBars).2 1 (by decide) _ (by decide)

/-- The file filter of `get_available_files` in src/cli/file_selector.py as
quoted in the source tree: keep the names that end neither in _data.feather
nor in _min_data.feather and return them sorted in ascending order. -/
def get_available_files (all_files : List String) : List String :=
  (all_files.filter (fun f =>
      !(f.endsWith "_data.feather" || f.endsWith "_min_data.feather"))).mergeSort
    (fun a b => decide (a ≤ b))

/-- C9: `get_available_files` returns an ascending-sorted list, no element
of which ends in _data.feather or _min_data.feather, and every input name
ending in neither suffix is included. -/
theorem get_available_files_spec (all_files : List String) :
    List.Pairwise (fun a b : String => a ≤ b) (get_available_files all_files) ∧
    (∀ f ∈ get_available_files all_files,
      f.endsWith "_data.feather" = false ∧
      f.endsWith "_min_data.feather" = false) ∧
    (∀ f ∈ all_files, f.endsWith "_data.feather" = false →
      f.endsWith "_min_data.feather" = false →
      f ∈ get_available_files all_files) := by
  refine ⟨?_, fun f hf => ?_, fun f hf h1 h2 => ?_⟩
  · have hs := @List.sorted_mergeSort String
      (fun a b : String => decide (a ≤ b))
      (fun a b c hab hbc => by
        simp only [decide_eq_true_eq] at hab hbc ⊢
        exact le_trans hab hbc)
      (fun a b => by
        rcases le_total a b with h | h <;> simp [h])
      (all_files.filter (fun f =>
        !(f.endsWith "_data.feather" || f.endsWith "_min_data.feather")))
    exact hs.imp (fun h => by simpa using h)
  · have hmem := List.mem_filter.mp (List.mem_mergeSort.mp hf)
    have hcond := hmem.2
    simp only [Bool.not_eq_true', Bool.or_eq_false_iff] at hcond
    exact hcond
  · refine List.mem_mergeSort.mpr (List.mem_filter.mpr ⟨hf, ?_⟩)
    simp [h1, h2]

/-- A directory listing exercising both excluded suffixes. -/
def demoFiles : List String :=
  ["b.feather", "a_data.feather", "a.feather", "x_min_data.feather"]

/-- Witness for C9: on the demo listing the result is sorted and contains
the plain data file a.feather. -/
theorem get_available_files_spec_witness :
    List.Pairwise (fun a b : String => a ≤ b) (get_available_files demoFiles) ∧
    "a.feather" ∈ get_available_files demoFiles :=
  ⟨(get_available_files_spec demoFiles).1,
   (get_available_files_spec demoFiles).2.2 "a.feather" (by decide)
     (by decide) (by decide)⟩

/-- Little-endian decimal digit list of a natural number, computed with
structural fuel so that concrete instances reduce in the kernel. -/
def decRev : Nat → Nat → List Nat
  | 0, _ => []
  | fuel + 1, n => if n = 0 then [] else n % 10 :: decRev fuel (n / 10)

/-- With enough fuel, `decRev` computes `Nat.digits 10`. -/
theorem decRev_eq_digits : ∀ (fuel n : Nat), n ≤ fuel →
    decRev fuel n = Nat.digits 10 n
  | 0, n, h => by
    have hn : n = 0 := Nat.le_zero.mp h
    simp [decRev, hn]
  | fuel + 1, n, h => by
    by_cases hn : n = 0
    · simp [decRev, hn]
    · have hlt : n / 10 < n := Nat.div_lt_self (Nat.pos_of_ne_zero hn) (by norm_num)
      have hle : n / 10 ≤ fuel := by omega
      simp only [decRev, if_neg hn]
      rw [decRev_eq_digits fuel (n / 10) hle,
        Nat.digits_def' (by norm_num : (1 : ℕ) < 10) (Nat.pos_of_ne_zero hn)]

/-- Decimal rendering of a natural number, most significant digit first:
the shallow embedding of the Python string conversion applied to the
counter of the create_project_folder loop. -/
def natDecimal (n : Nat) : String :=
  if n = 0 then "0"
  else String.mk (((decRev n n).map Nat.digitChar).reverse)

/-- For nonzero input the rendering is the reversed digit list of
`Nat.digits 10`. -/
theorem natDecimal_eq_digits (n : Nat) (hn : n ≠ 0) :
    natDecimal n =
      String.mk (((Nat.digits 10 n).map Nat.digitChar).reverse) := by
  rw [natDecimal, if_neg hn, decRev_eq_digits n n (le_refl n)]

/-- `Nat.digitChar` is injective on digits below ten. -/
theorem digitChar_inj_lt :
    ∀ d1 : Nat, d1 < 10 → ∀ d2 : Nat, d2 < 10 →
      Nat.digitChar d1 = Nat.digitChar d2 → d1 = d2 := by decide

/-- Mapping `Nat.digitChar` over lists of digits below ten is injective. -/
theorem map_digitChar_inj :
    ∀ l1 l2 : List Nat, (∀ d ∈ l1, d < 10) → (∀ d ∈ l2, d < 10) →
      l1.map Nat.digitChar = l2.map Nat.digitChar → l1 = l2
  | [], [], _, _, _ => rfl
  | [], _ :: _, _, _, h => by simp at h
  | _ :: _, [], _, _, h => by simp at h
  | a :: l1, b :: l2, h1, h2, h => by
    simp only [List.map_cons, List.cons.injEq] at h
    have hab : a = b :=
      digitChar_inj_lt a (h1 a (List.mem_cons_self a l1)) b
        (h2 b (List.mem_cons_self b l2)) h.1
    have hrest := map_digitChar_inj l1 l2
      (fun d hd => h1 d (List.mem_cons_of_mem a hd))
      (fun d hd => h2 d (List.mem_cons_of_mem b hd)) h.2
    rw [hab, hrest]

/-- Only zero renders to the string 0. -/
theorem natDecimal_eq_zero_str (n : Nat) (h : natDecimal n = "0") : n = 0 := by
  by_cases hn : n = 0
  · exact hn
  · exfalso
    rw [natDecimal_eq_digits n hn] at h
    have hd := congrArg String.data h
    have h2 : (Nat.digits 10 n).map Nat.digitChar = ['0'] := by
      have := congrArg List.reverse hd
      simpa using this
    have h3 : Nat.digits 10 n = [0] :=
      map_digitChar_inj (Nat.digits 10 n) [0]
        (fun d hd => Nat.digits_lt_base (by norm_num) hd)
        (by intro d hd; simp only [List.mem_singleton] at hd; omega)
        (by rw [h2]; rfl)
    have h4 := Nat.ofDigits_digits 10 n
    rw [h3, Nat.ofDigits_singleton] at h4
    exact hn h4.symm

/-- The decimal rendering is injective. -/
theorem natDecimal_injective : Function.Injective natDecimal := by
  intro m n h
  by_cases hm : m = 0 <;> by_cases hn : n = 0
  · rw [hm, hn]
  · exfalso
    rw [hm] at h
    exact hn (natDecimal_eq_zero_str n (by rw [← h]; rfl))
  · exfalso
    rw [hn] at h
    exact hm (natDecimal_eq_zero_str m (by rw [h]; rfl))
  · rw [natDecimal_eq_digits m hm, natDecimal_eq_digits n hn] at h
    have hd := congrArg String.data h
    have h2 : (Nat.digits 10 m).map Nat.digitChar =
        (Nat.digits 10 n).map Nat.digitChar := by
      have := congrArg List.reverse hd
      simpa using this
    have h3 : Nat.digits 10 m = Nat.digits 10 n :=
      map_digitChar_inj _ _
        (fun d hd => Nat.digits_lt_base (by norm_num) hd)
        (fun d hd => Nat.digits_lt_base (by norm_num) hd) h2
    exact Nat.digits.injective 10 h3

/-- The rendering of any number is a nonempty string. -/
theorem natDecimal_length_pos (n : Nat) : 0 < (natDecimal n).length := by
  by_cases hn : n = 0
  · rw [hn]; decide
  · rw [natDecimal_eq_digits n hn]
    show 0 < (((Nat.digits 10 n).map Nat.digitChar).reverse).length
    simp only [List.length_reverse, List.length_map]
    exact List.length_pos.mpr (Nat.digits_ne_nil_iff_ne_zero.mpr hn)

/-- The path candidates probed by the create_project_folder loop: the plain
screenshot_folder/project_name first, then the numbered variants
screenshot_folder/project_name_1, project_name_2, and so on. -/
def candidate (folder name : String) : Nat → String
  | 0 => folder ++ "/" ++ name
  | i + 1 => folder ++ "/" ++ name ++ "_" ++ natDecimal (i + 1)

/-- The candidate paths are pairwise distinct. -/
theorem candidate_injective (folder name : String) :
    Function.Injective (candidate folder name) := by
  intro i j h
  cases i with
  | zero =>
    cases j with
    | zero => rfl
    | succ j =>
      exfalso
      have hl := congrArg String.length h
      simp only [candidate, String.length_append] at hl
      have := natDecimal_length_pos (j + 1)
      omega
  | succ i =>
    cases j with
    | zero =>
      exfalso
      have hl := congrArg String.length h
      simp only [candidate, String.length_append] at hl
      have := natDecimal_length_pos (i + 1)
      omega
    | succ j =>
      have hd := congrArg String.data h
      simp only [candidate, String.data_append, List.append_assoc] at hd
      have h1 := List.append_cancel_left hd
      have h2 := List.append_cancel_left h1
      have h3 := List.append_cancel_left h2
      have h4 := List.append_cancel_left h3
      have := natDecimal_injective (String.ext h4)
      omega

/-- Fresh candidates always exist: a list of existing paths cannot contain
all of the pairwise-distinct candidate paths. -/
theorem candidate_free_exists (existing : List String) (folder name : String) :
    ∃ j, candidate folder name j ∉ existing := by
  by_contra hall
  push_neg at hall
  have hsub : ∀ a ∈ Finset.range (existing.length + 1),
      candidate folder name a ∈ existing.toFinset :=
    fun a _ => List.mem_toFinset.mpr (hall a)
  have hinj : Set.InjOn (candidate folder name)
      ↑(Finset.range (existing.length + 1)) :=
    fun a _ b _ hab => candidate_injective folder name hab
  have hcard := Finset.card_le_card_of_injOn (candidate folder name) hsub hinj
  rw [Finset.card_range] at hcard
  have hle := existing.toFinset_card_le
  omega

/-- `create_project_folder` of src/nbs/04_img_to_xls.ipynb over a
filesystem modelled as the finite list of already-existing paths: starting
from screenshot_folder/project_name, while the current candidate exists the
loop moves on to project_name_1, project_name_2, ...; the result is the
first candidate not already present, here the least index accepted by the
loop condition. -/
def create_project_folder (existing : List String)
    (screenshot_folder project_name : String) : String :=
  candidate screenshot_folder project_name
    (Nat.find (candidate_free_exists existing screenshot_folder project_name))

/-- C10: `create_project_folder` never returns a pre-existing path; it
returns screenshot_folder/project_name when that path does not exist, and
otherwise the numbered variant with the smallest index at least 1 whose
path does not exist, every smaller positive index being taken. -/
theorem create_project_folder_spec (existing : List String)
    (screenshot_folder project_name : String) :
    create_project_folder existing screenshot_folder project_name ∉ existing ∧
    (candidate screenshot_folder project_name 0 ∉ existing →
      create_project_folder existing screenshot_folder project_name =
        candidate screenshot_folder project_name 0) ∧
    (candidate screenshot_folder project_name 0 ∈ existing →
      ∃ i, 1 ≤ i ∧
        create_project_folder existing screenshot_folder project_name =
          candidate screenshot_folder project_name i ∧
        candidate screenshot_folder project_name i ∉ existing ∧
        ∀ j, 1 ≤ j → j < i →
          candidate screenshot_folder project_name j ∈ existing) := by
  refine ⟨?_, fun h0 => ?_, fun h0 => ?_⟩
  · show candidate screenshot_folder project_name
      (Nat.find (candidate_free_exists existing screenshot_folder
        project_name)) ∉ existing
    exact Nat.find_spec (candidate_free_exists existing screenshot_folder
      project_name)
  · have hz : Nat.find (candidate_free_exists existing screenshot_folder
        project_name) = 0 := Nat.find_eq_zero _ |>.mpr h0
    rw [create_project_folder, hz]
  · refine ⟨Nat.find (candidate_free_exists existing screenshot_folder
      project_name), ?_, rfl,
      Nat.find_spec (candidate_free_exists existing screenshot_folder
        project_name), fun j h1 hj => ?_⟩
    · rcases Nat.eq_zero_or_pos (Nat.find (candidate_free_exists existing
        screenshot_folder project_name)) with hz | hp
      · exfalso
        have := Nat.find_spec (candidate_free_exists existing
          screenshot_folder project_name)
        rw [hz] at this
        exact this h0
      · exact hp
    · have := Nat.find_min (candidate_free_exists existing screenshot_folder
        project_name) hj
      simpa using this

/-- Pre-existing paths for the C10 scenario: the plain project path and its
first numbered variant are taken. -/
def demoExisting : List String := ["shots/proj", "shots/proj_1"]

/-- Witness for C10: with shots/proj and shots/proj_1 taken, the returned
folder is shots/proj_2, which is not a pre-existing path. -/
theorem create_project_folder_spec_witness :
    create_project_folder demoExisting "shots" "proj" = "shots/proj_2" ∧
    create_project_folder demoExisting "shots" "proj" ∉ demoExisting := by
  obtain ⟨i, hi1, heq, hfree, hmin⟩ :=
    (create_project_folder_spec demoExisting "shots" "proj").2.2 (by decide)
  have hi2 : i = 2 := by
    rcases Nat.lt_or_ge i 2 with hlt | hge
    · exfalso
      have h1i : i = 1 := by omega
      rw [h1i] at hfree
      exact hfree (by decide)
    · rcases Nat.eq_or_lt_of_le hge with hgeq | hgt
      · exact hgeq.symm
      · exfalso
        exact absurd (hmin 2 (by omega) (by omega)) (by decide)
  refine ⟨?_, (create_project_folder_spec demoExisting "shots" "proj").1⟩
  rw [heq, hi2]
  decide

end DCCharts
